import Mathlib

/-!
Verification of the strudel-ai audio export core.

Shallow embedding of:
- `src/lib/wavEncoder.ts` (pure WAV encoder),
- `src/lib/ExportManager.ts` (export orchestration, modelled as a pure
  function of the environment events it consumes),
- `src/components/Editor.tsx` (the `AudioNode.connect` interception wrapper).

Floating-point sample values are modelled as rationals; JavaScript typed-array
stores (`setUint16`/`setUint32`/`setInt16`) are modelled with explicit
`% 2 ^ w` byte extraction, matching their wrap-around semantics.
-/

namespace StrudelAI

/-! ### wavEncoder.ts -/

/-- Model of a Web Audio `AudioBuffer`: a sample rate, a frame count and
per-channel sample data (floats modelled as rationals). -/
structure AudioBuffer where
  sampleRate : ℕ
  length : ℕ
  channels : List (List ℚ)
deriving DecidableEq

/-- `audioBuffer.numberOfChannels`. -/
def AudioBuffer.numberOfChannels (b : AudioBuffer) : ℕ := b.channels.length

/-- `audioBuffer.getChannelData(c)`: the channel's sample list (empty when out
of range). -/
def AudioBuffer.getChannelData (b : AudioBuffer) (c : ℕ) : List ℚ :=
  b.channels.getD c []

/-- Bytes written by `writeString(view, offset, str)`: the code units of the
string, one byte each. -/
def writeString (s : String) : List ℕ := s.toList.map Char.toNat

/-- Little-endian bytes stored by `view.setUint16(offset, v, true)`; the
byte extraction realises the JS wrap-around `v % 2^16`. -/
def uint16le (v : ℕ) : List ℕ := [v % 256, v / 256 % 256]

/-- Little-endian bytes stored by `view.setUint32(offset, v, true)`; the
byte extraction realises the JS wrap-around `v % 2^32`. -/
def uint32le (v : ℕ) : List ℕ :=
  [v % 256, v / 256 % 256, v / 65536 % 256, v / 16777216 % 256]

/-- The clamp `Math.max(-1, Math.min(1, s))` from `floatTo16BitPCM`. -/
def clampSample (s : ℚ) : ℚ := max (-1) (min 1 s)

/-- The asymmetric scaling `s < 0 ? s * 0x8000 : s * 0x7FFF`. -/
def scaleSample (s : ℚ) : ℚ := if s < 0 then s * 32768 else s * 32767

/-- JavaScript number-to-integer conversion (truncation toward zero), the
first step of `setInt16`'s ToInt16. -/
def truncToInt (q : ℚ) : ℤ := if q < 0 then -⌊-q⌋ else ⌊q⌋

/-- The signed 16-bit value produced for one input sample by
`floatTo16BitPCM` (clamp, then scale). -/
def pcm16 (s : ℚ) : ℤ := truncToInt (scaleSample (clampSample s))

/-- ToInt16's final wrap: the unsigned 16-bit store of an integer. -/
def toUint16 (n : ℤ) : ℕ := (n % 65536).toNat

/-- Reading a stored unsigned 16-bit value back as a signed integer. -/
def int16OfUint16 (u : ℕ) : ℤ := if u < 32768 then (u : ℤ) else (u : ℤ) - 65536

/-- Little-endian bytes stored by `view.setInt16(offset, n, true)`. -/
def int16le (n : ℤ) : List ℕ := [toUint16 n % 256, toUint16 n / 256 % 256]

/-- `floatTo16BitPCM(view, offset, samples)`: the byte stream written at
`offset`, two little-endian bytes per sample. -/
def floatTo16BitPCM (samples : List ℚ) : List ℕ :=
  samples.flatMap (fun s => int16le (pcm16 s))

/-- `interleaveChannels(audioBuffer)`: a `Float32Array` of size
`length * numChannels`; mono copies channel 0 (absent entries stay 0, as in
the zero-initialised typed array), otherwise entry `i*N + c` is
`channels[c][i]`. -/
def interleaveChannels (b : AudioBuffer) : List ℚ :=
  if b.numberOfChannels = 1 then
    (List.range b.length).map (fun i => (b.getChannelData 0).getD i 0)
  else
    (List.range b.length).flatMap (fun i =>
      (List.range b.numberOfChannels).map (fun c => (b.getChannelData c).getD i 0))

/-- `encodeWav(audioBuffer)`: the 44-byte canonical RIFF/WAVE header followed
by the interleaved 16-bit PCM sample bytes, exactly in the source's write
order. -/
def encodeWav (b : AudioBuffer) : List ℕ :=
  let numChannels := b.numberOfChannels
  let sampleRate := b.sampleRate
  let bytesPerSample := 2
  let interleaved := interleaveChannels b
  let dataSize := interleaved.length * bytesPerSample
  writeString "RIFF" ++ uint32le (36 + dataSize) ++ writeString "WAVE" ++
  writeString "fmt " ++ uint32le 16 ++ uint16le 1 ++ uint16le numChannels ++
  uint32le sampleRate ++ uint32le (sampleRate * numChannels * bytesPerSample) ++
  uint16le (numChannels * bytesPerSample) ++ uint16le 16 ++
  writeString "data" ++ uint32le dataSize ++
  floatTo16BitPCM interleaved

/-- An empty sample buffer: stereo, 44100 Hz, zero frames. -/
def emptyBuffer : AudioBuffer := ⟨44100, 0, [[], []]⟩

/-! ### ExportManager.ts -/

/-- `ExportSettings`. -/
structure ExportSettings where
  cycles : ℕ
  sessionName : String

/-- The export phases reported through `ExportProgress.phase`. -/
inductive Phase where
  | preparing
  | recording
  | encoding
  | complete
deriving DecidableEq

/-- `ExportProgress` snapshots passed to the `onProgress` callback. -/
structure ExportProgress where
  phase : Phase
  progress : ℚ
  currentCycle : Option ℤ := none
  totalCycles : Option ℕ := none
deriving DecidableEq

/-- `StrudelScheduler`: `cps` and the value `now()` returns when `export`
reads the clock. -/
structure StrudelScheduler where
  cps : ℚ
  now : ℚ

/-- A binary `Blob` fragment delivered by the `MediaRecorder`. -/
structure Blob where
  data : List ℕ
deriving DecidableEq

/-- `blob.size`. -/
def Blob.size (b : Blob) : ℕ := b.data.length

/-- Events emitted by the `MediaRecorder` during a recording session. -/
inductive RecorderEvent where
  | dataAvailable (blob : Blob)
  | errorEvent
deriving DecidableEq

/-- The `recorder.ondataavailable` handler: push the blob onto `chunks`
only if its size is positive. -/
def handleDataAvailable (chunks : List Blob) (blob : Blob) : List Blob :=
  if blob.size > 0 then chunks ++ [blob] else chunks

/-- Dispatch of one recorder event: `ondataavailable` appends non-empty
blobs; `onerror` only calls `console.error` and leaves all session state
unchanged. -/
def handleRecorderEvent (chunks : List Blob) : RecorderEvent → List Blob
  | .dataAvailable blob => handleDataAvailable chunks blob
  | .errorEvent => chunks

/-- The effective cps after the `scheduler.cps || 0.5` guard (a falsy,
i.e. zero, cps falls back to 0.5 cycles per second). -/
def effectiveCps (cps : ℚ) : ℚ := if cps = 0 then 1 / 2 else cps

/-- `cycleDuration = 1 / cps`. -/
def cycleDuration (cps : ℚ) : ℚ := 1 / effectiveCps cps

/-- `totalDuration = cycles * cycleDuration` (seconds). -/
def totalDuration (cycles : ℕ) (cps : ℚ) : ℚ := cycles * cycleDuration cps

/-- `waitTime = (Math.ceil(currentCycle) - currentCycle) * cycleDuration`
(seconds), the boundary-alignment wait computed by `export`. -/
def waitTime (s : StrudelScheduler) : ℚ :=
  ((⌈s.now⌉ : ℚ) - s.now) * cycleDuration s.cps

/-- The milliseconds actually slept: `Math.max(0, waitTime * 1000)`. -/
def preWaitMs (s : StrudelScheduler) : ℚ := max 0 (waitTime s * 1000)

/-- One `checkProgress` iteration's snapshot at a given elapsed time (ms):
`progress = Math.min(100, elapsed / durationMs * 100)` and
`currentCycle = Math.floor(elapsed / durationMs * cycles)`. -/
def recordingTickSnapshot (durationMs : ℚ) (cycles : ℕ) (elapsed : ℚ) :
    ExportProgress :=
  ⟨.recording, min 100 (elapsed / durationMs * 100),
    some ⌊elapsed / durationMs * cycles⌋, some cycles⟩

/-- All Recording-phase snapshots: the initial
`{phase: recording, progress: 0, currentCycle: 0}` report followed by one
`checkProgress` snapshot per sampled elapsed time. -/
def recordingSnapshots (durationMs : ℚ) (cycles : ℕ) (ticks : List ℚ) :
    List ExportProgress :=
  ⟨.recording, 0, some 0, some cycles⟩ ::
    ticks.map (recordingTickSnapshot durationMs cycles)

/-- The final `{phase: complete, progress: 100}` snapshot. -/
def completeSnapshot : ExportProgress := ⟨.complete, 100, none, none⟩

/-- `stopRecording` / `blobToAudioBuffer`: resolve `null` when no chunks
were captured; otherwise concatenate the chunks into one blob and decode
it, a decoder rejection being caught and converted to `null`. -/
def stopRecordingResult (decodeAudioData : List ℕ → Option AudioBuffer)
    (chunks : List Blob) : Option AudioBuffer :=
  if chunks = [] then none
  else decodeAudioData (chunks.flatMap Blob.data)

/-- The environment a single `export()` call consumes: the recorder events
delivered while recording, the elapsed times (ms) sampled by the
`checkProgress` loop, and the hardware context's decoder. -/
structure ExportEnv where
  recorderEvents : List RecorderEvent
  ticks : List ℚ
  decodeAudioData : List ℕ → Option AudioBuffer

/-- `ExportManager.export(settings, scheduler, onProgress)` as a pure
function of its environment: returns the list of progress snapshots
reported, and either the encoded WAV payload bundled in the archive or the
thrown error's message. Mirrors the source's control flow: preparing
report, tap check, duration computation, recording, `stopRecording`, the
`encoding: 50` report, the null-buffer check, WAV encoding, the
`encoding: 80` and `complete: 100` reports, zip bundling. -/
def exportRun (mediaStreamDest : Bool) (settings : ExportSettings)
    (scheduler : StrudelScheduler) (env : ExportEnv) :
    List ExportProgress × Except String (List ℕ) :=
  let pre : List ExportProgress := [⟨.preparing, 0, none, none⟩]
  if mediaStreamDest = false then
    (pre, .error "Recording tap not set up. Call setupRecordingTap() first.")
  else
    let durationMs := totalDuration settings.cycles scheduler.cps * 1000
    let chunks := env.recorderEvents.foldl handleRecorderEvent []
    let audioBuffer := stopRecordingResult env.decodeAudioData chunks
    let snaps := pre ++ recordingSnapshots durationMs settings.cycles env.ticks ++
      [⟨.encoding, 50, none, none⟩]
    match audioBuffer with
    | none => (snaps, .error "No audio recorded")
    | some buf =>
        (snaps ++ [⟨.encoding, 80, none, none⟩, completeSnapshot],
          .ok (encodeWav buf))

/-- The character class `[a-zA-Z0-9-_]` of `sanitizeName`'s regex. -/
def allowedChar (c : Char) : Bool :=
  (decide ('a' ≤ c) && decide (c ≤ 'z')) ||
  (decide ('A' ≤ c) && decide (c ≤ 'Z')) ||
  (decide ('0' ≤ c) && decide (c ≤ '9')) ||
  c = '-' || c = '_'

/-- `sanitizeName(name)`:
`name.replace(/[^a-zA-Z0-9-_]/g, '_').substring(0, 50) || 'export'`. -/
def sanitizeName (name : String) : String :=
  let replaced := String.mk (name.toList.map (fun c => if allowedChar c then c else '_'))
  let truncated := String.mk (replaced.toList.take 50)
  if truncated = "" then "export" else truncated

/-! ### Editor.tsx — the `AudioNode.connect` interception -/

/-- An audio-graph node, identified abstractly. -/
structure Node where
  id : ℕ
deriving DecidableEq

/-- The part of an `AudioContext` the wrapper consults: its hardware
`destination` node. -/
structure AudioContextM where
  destination : Node

/-- The module-level recording state read by the patched `connect`:
`isRecordingActive`, `recordingDestination` and `audioContextRef`. -/
structure TapState where
  isRecordingActive : Bool
  recordingDestination : Option Node
  audioContextRef : Option AudioContextM

/-- The unpatched `AudioNode.prototype.connect`: performs the connection
(recorded in the connection log) and returns the destination node, as the
Web Audio API does. -/
def originalConnect (log : List (Node × Node)) (src dst : Node) :
    List (Node × Node) × Node :=
  (log ++ [(src, dst)], dst)

/-- The wrapper installed by `patchAudioConnect`: always performs the
original connection first and keeps its return value; then, only when
recording is active, a recording destination exists, an audio context is
known and the call's destination is the hardware destination, additionally
connects the source to the recording destination (that extra call is
wrapped in try/catch in the source). -/
def connectPatched (st : TapState) (log : List (Node × Node)) (src dst : Node) :
    List (Node × Node) × Node :=
  let first := originalConnect log src dst
  let log2 :=
    if st.isRecordingActive then
      match st.recordingDestination, st.audioContextRef with
      | some rd, some ctx =>
          if dst = ctx.destination then (originalConnect first.1 src rd).1
          else first.1
      | _, _ => first.1
    else first.1
  (log2, first.2)

/-! ### Helper lemmas -/

/-- Each sample contributes exactly two bytes to the PCM data stream. -/
theorem length_floatTo16BitPCM (l : List ℚ) :
    (floatTo16BitPCM l).length = 2 * l.length := by
  induction l with
  | nil => rfl
  | cons x xs ih =>
      have hc : floatTo16BitPCM (x :: xs) =
          int16le (pcm16 x) ++ floatTo16BitPCM xs := rfl
      have h2 : (int16le (pcm16 x)).length = 2 := rfl
      rw [hc, List.length_append, h2, ih, List.length_cons]
      omega

/-- Every snapshot generated during the Recording phase has phase
`recording`. -/
theorem mem_recordingSnapshots_phase (d : ℚ) (c : ℕ) (ticks : List ℚ)
    (p : ExportProgress) (hp : p ∈ recordingSnapshots d c ticks) :
    p.phase = Phase.recording := by
  simp only [recordingSnapshots, List.mem_cons, List.mem_map] at hp
  rcases hp with h | ⟨e, _, rfl⟩
  · rw [h]
  · rfl

/-- Recorder error events leave the chunk list untouched, so any fold over
recorder events equals the fold over the data events alone. -/
theorem foldl_handleRecorderEvent_filter (events : List RecorderEvent)
    (chunks : List Blob) :
    events.foldl handleRecorderEvent chunks =
      (events.filter (fun e => e ≠ RecorderEvent.errorEvent)).foldl
        handleRecorderEvent chunks := by
  induction events generalizing chunks with
  | nil => rfl
  | cons e es ih =>
      cases e with
      | dataAvailable blob => simp [List.filter, List.foldl, ih]
      | errorEvent => simpa [List.filter, List.foldl, handleRecorderEvent] using ih chunks

/-! ### Claim theorems -/

set_option maxHeartbeats 2000000 in
/-- Claim C1: `encodeWav` always emits the canonical 44-byte RIFF/WAVE
header byte-exactly: "RIFF", total size 36 + data size, "WAVE", a 16-byte
"fmt " subchunk with PCM code 1, the buffer's channel count and sample
rate, byte rate sampleRate*channels*2, block align channels*2, bit depth
16, and a "data" subchunk sized interleaved-sample-count*2; the whole
output is 44 bytes plus the data, and on an empty buffer it is exactly the
44 header bytes with a zero data-size field. -/
theorem encodeWav_header_correct (b : AudioBuffer) :
    (encodeWav b).take 4 = writeString "RIFF" ∧
    ((encodeWav b).drop 4).take 4 =
      uint32le (36 + (interleaveChannels b).length * 2) ∧
    ((encodeWav b).drop 8).take 4 = writeString "WAVE" ∧
    ((encodeWav b).drop 12).take 4 = writeString "fmt " ∧
    ((encodeWav b).drop 16).take 4 = uint32le 16 ∧
    ((encodeWav b).drop 20).take 2 = uint16le 1 ∧
    ((encodeWav b).drop 22).take 2 = uint16le b.numberOfChannels ∧
    ((encodeWav b).drop 24).take 4 = uint32le b.sampleRate ∧
    ((encodeWav b).drop 28).take 4 =
      uint32le (b.sampleRate * b.numberOfChannels * 2) ∧
    ((encodeWav b).drop 32).take 2 = uint16le (b.numberOfChannels * 2) ∧
    ((encodeWav b).drop 34).take 2 = uint16le 16 ∧
    ((encodeWav b).drop 36).take 4 = writeString "data" ∧
    ((encodeWav b).drop 40).take 4 =
      uint32le ((interleaveChannels b).length * 2) ∧
    (encodeWav b).length = 44 + (interleaveChannels b).length * 2 ∧
    encodeWav emptyBuffer =
      [82, 73, 70, 70, 36, 0, 0, 0, 87, 65, 86, 69, 102, 109, 116, 32,
       16, 0, 0, 0, 1, 0, 2, 0, 68, 172, 0, 0, 16, 177, 2, 0, 4, 0, 16, 0,
       100, 97, 116, 97, 0, 0, 0, 0] ∧
    (encodeWav emptyBuffer).length = 44 := by
  have h01 : (encodeWav b).take 4 = writeString "RIFF" := by rfl
  have h02 : ((encodeWav b).drop 4).take 4 =
      uint32le (36 + (interleaveChannels b).length * 2) := by rfl
  have h03 : ((encodeWav b).drop 8).take 4 = writeString "WAVE" := by rfl
  have h04 : ((encodeWav b).drop 12).take 4 = writeString "fmt " := by rfl
  have h05 : ((encodeWav b).drop 16).take 4 = uint32le 16 := by rfl
  have h06 : ((encodeWav b).drop 20).take 2 = uint16le 1 := by rfl
  have h07 : ((encodeWav b).drop 22).take 2 = uint16le b.numberOfChannels := by rfl
  have h08 : ((encodeWav b).drop 24).take 4 = uint32le b.sampleRate := by rfl
  have h09 : ((encodeWav b).drop 28).take 4 =
      uint32le (b.sampleRate * b.numberOfChannels * 2) := by rfl
  have h10 : ((encodeWav b).drop 32).take 2 =
      uint16le (b.numberOfChannels * 2) := by rfl
  have h11 : ((encodeWav b).drop 34).take 2 = uint16le 16 := by rfl
  have h12 : ((encodeWav b).drop 36).take 4 = writeString "data" := by rfl
  have h13 : ((encodeWav b).drop 40).take 4 =
      uint32le ((interleaveChannels b).length * 2) := by rfl
  have h14 : (encodeWav b).length = 44 + (interleaveChannels b).length * 2 := by
    simp only [encodeWav, writeString, uint32le, uint16le, List.length_append,
      length_floatTo16BitPCM]
    simp
    omega
  have h15 : encodeWav emptyBuffer =
      [82, 73, 70, 70, 36, 0, 0, 0, 87, 65, 86, 69, 102, 109, 116, 32,
       16, 0, 0, 0, 1, 0, 2, 0, 68, 172, 0, 0, 16, 177, 2, 0, 4, 0, 16, 0,
       100, 97, 116, 97, 0, 0, 0, 0] := by rfl
  have h16 : (encodeWav emptyBuffer).length = 44 := by rfl
  exact ⟨h01, h02, h03, h04, h05, h06, h07, h08, h09, h10, h11, h12, h13,
    h14, h15, h16⟩

/-- Claim C2: each sample is clamped to [-1, 1] first, then scaled
asymmetrically (negative values by 32768, non-negative ones by 32767) and
truncated to a signed 16-bit value; every produced value fits in
[-32768, 32767] (so the 16-bit store wraps losslessly), two little-endian
bytes are emitted per sample, and +1 maps to 32767 while -1 maps to
-32768. -/
theorem floatTo16BitPCM_clamped_asymmetric (q : ℚ) :
    -1 ≤ clampSample q ∧ clampSample q ≤ 1 ∧
    pcm16 q = (if clampSample q < 0 then ⌈clampSample q * 32768⌉
               else ⌊clampSample q * 32767⌋) ∧
    -32768 ≤ pcm16 q ∧ pcm16 q ≤ 32767 ∧
    int16OfUint16 (toUint16 (pcm16 q)) = pcm16 q ∧
    floatTo16BitPCM [q] = int16le (pcm16 q) ∧
    pcm16 1 = 32767 ∧ pcm16 (-1) = -32768 := by
  have hlo : -1 ≤ clampSample q := le_max_left _ _
  have hhi : clampSample q ≤ 1 := max_le (by norm_num) (min_le_left _ _)
  have hdic : pcm16 q = (if clampSample q < 0 then ⌈clampSample q * 32768⌉
      else ⌊clampSample q * 32767⌋) := by
    by_cases h : clampSample q < 0
    · have hneg : clampSample q * 32768 < 0 :=
        mul_neg_of_neg_of_pos h (by norm_num)
      simp only [pcm16, scaleSample, truncToInt, if_pos h, if_pos hneg]
      rw [Int.floor_neg]
      ring_nf
    · have hpos : ¬ clampSample q * 32767 < 0 := by
        push_neg
        exact mul_nonneg (not_lt.mp h) (by norm_num)
      simp only [pcm16, scaleSample, truncToInt, if_neg h, if_neg hpos]
  have hb1 : -32768 ≤ pcm16 q := by
    rw [hdic]
    by_cases h : clampSample q < 0
    · rw [if_pos h]
      have : ((-32768 : ℤ) : ℚ) ≤ clampSample q * 32768 := by
        push_cast
        nlinarith
      calc (-32768 : ℤ) = ⌈((-32768 : ℤ) : ℚ)⌉ := by rw [Int.ceil_intCast]
        _ ≤ ⌈clampSample q * 32768⌉ := Int.ceil_le_ceil this
    · rw [if_neg h]
      have : ((0 : ℤ) : ℚ) ≤ clampSample q * 32767 := by
        push_cast
        nlinarith [not_lt.mp h]
      calc (-32768 : ℤ) ≤ 0 := by norm_num
        _ = ⌊((0 : ℤ) : ℚ)⌋ := by rw [Int.floor_intCast]
        _ ≤ ⌊clampSample q * 32767⌋ := Int.floor_le_floor this
  have hb2 : pcm16 q ≤ 32767 := by
    rw [hdic]
    by_cases h : clampSample q < 0
    · rw [if_pos h]
      have : clampSample q * 32768 ≤ ((0 : ℤ) : ℚ) := by
        push_cast
        nlinarith
      calc ⌈clampSample q * 32768⌉ ≤ ⌈((0 : ℤ) : ℚ)⌉ := Int.ceil_le_ceil this
        _ = 0 := Int.ceil_intCast 0
        _ ≤ 32767 := by norm_num
    · rw [if_neg h]
      have : clampSample q * 32767 ≤ ((32767 : ℤ) : ℚ) := by
        push_cast
        nlinarith [not_lt.mp h]
      calc ⌊clampSample q * 32767⌋ ≤ ⌊((32767 : ℤ) : ℚ)⌋ :=
          Int.floor_le_floor this
        _ = 32767 := Int.floor_intCast 32767
  refine ⟨hlo, hhi, hdic, hb1, hb2, ?_, ?_, ?_, ?_⟩
  · simp only [int16OfUint16, toUint16]
    split <;> omega
  · simp [floatTo16BitPCM]
  · norm_num [pcm16, scaleSample, clampSample, truncToInt]
  · norm_num [pcm16, scaleSample, clampSample, truncToInt]

/-- A session environment in which the recorder raises an error event and
then delivers one non-empty data fragment, with a decoder that succeeds. -/
def envErr : ExportEnv :=
  ⟨[.errorEvent, .dataAvailable ⟨[1, 2, 3]⟩], [], fun _ => some emptyBuffer⟩

/-- A session environment in which the recorder never raises a
data-availability event. -/
def envEmpty : ExportEnv := ⟨[], [], fun _ => some emptyBuffer⟩

/-- A session environment with one non-empty captured fragment whose decode
is rejected by the hardware decoder. -/
def envDecodeFail : ExportEnv :=
  ⟨[.dataAvailable ⟨[1, 2, 3]⟩], [], fun _ => none⟩

/-- A session environment in which capture and decoding succeed. -/
def envOk : ExportEnv :=
  ⟨[.dataAvailable ⟨[1, 2, 3]⟩], [0, 500, 1000], fun _ => some emptyBuffer⟩

/-- Claim C3 counterexample: in a session whose recorder raises an error
event, `export` still resolves successfully (the `onerror` handler only
logs), the final reported snapshot is `complete`, and no failure surfaces
to the caller — refuting the claim that a recorder error aborts the
session with a failed result. -/
theorem recorder_error_not_aborting_cex :
    RecorderEvent.errorEvent ∈ envErr.recorderEvents ∧
    (exportRun true ⟨1, "s"⟩ ⟨1, 0⟩ envErr).2 = .ok (encodeWav emptyBuffer) ∧
    completeSnapshot ∈ (exportRun true ⟨1, "s"⟩ ⟨1, 0⟩ envErr).1 := by
  refine ⟨?_, by rfl, ?_⟩
  · simp [envErr]
  · decide

/-- Claim C3 (amended): a recorder error event is only logged and leaves
the session state unchanged — `export`'s observable behaviour (snapshots
and result) is identical to the same run with all error events removed, so
recording continues and no `RecordingError` is surfaced. -/
theorem export_ignores_recorder_errors (dest : Bool)
    (settings : ExportSettings) (scheduler : StrudelScheduler)
    (env : ExportEnv) :
    handleRecorderEvent [] RecorderEvent.errorEvent = [] ∧
    exportRun dest settings scheduler env =
      exportRun dest settings scheduler
        ⟨env.recorderEvents.filter (fun e => e ≠ RecorderEvent.errorEvent),
          env.ticks, env.decodeAudioData⟩ := by
  refine ⟨rfl, ?_⟩
  simp only [exportRun, foldl_handleRecorderEvent_filter env.recorderEvents]

/-- Claim C4 counterexample: with no data-availability event, `export`
does reject with the empty-capture error, but an Encoding-phase progress
snapshot (progress 50) is reported before the rejection — refuting the
claim that no Encoding-phase snapshot reaches `onProgress`. -/
theorem empty_capture_reports_encoding_cex :
    envEmpty.recorderEvents = [] ∧
    (exportRun true ⟨1, "s"⟩ ⟨1, 0⟩ envEmpty).2 = .error "No audio recorded" ∧
    (⟨.encoding, 50, none, none⟩ : ExportProgress) ∈
      (exportRun true ⟨1, "s"⟩ ⟨1, 0⟩ envEmpty).1 := by
  exact ⟨rfl, by rfl, by decide⟩

/-- Claim C4 (amended): when no fragment is captured, `export` rejects
with the empty-capture error and the encoder never runs — no `encoding: 80`
or `complete` snapshot is ever reported — but one Encoding-phase snapshot
(progress 50) is reported just before the rejection. -/
theorem export_empty_capture (settings : ExportSettings)
    (scheduler : StrudelScheduler) (env : ExportEnv)
    (h : env.recorderEvents.foldl handleRecorderEvent [] = []) :
    (exportRun true settings scheduler env).2 = .error "No audio recorded" ∧
    (⟨.encoding, 50, none, none⟩ : ExportProgress) ∈
      (exportRun true settings scheduler env).1 ∧
    (⟨.encoding, 80, none, none⟩ : ExportProgress) ∉
      (exportRun true settings scheduler env).1 ∧
    completeSnapshot ∉ (exportRun true settings scheduler env).1 := by
  have hrun : exportRun true settings scheduler env =
      ([⟨.preparing, 0, none, none⟩] ++
        recordingSnapshots (totalDuration settings.cycles scheduler.cps * 1000)
          settings.cycles env.ticks ++ [⟨.encoding, 50, none, none⟩],
        .error "No audio recorded") := by
    simp only [exportRun, h, stopRecordingResult, if_pos rfl]
    rfl
  rw [hrun]
  refine ⟨rfl, ?_, ?_, ?_⟩
  · simp
  · intro hmem
    simp only [List.mem_append, List.mem_singleton] at hmem
    rcases hmem with (hmem | hmem) | hmem
    · simp at hmem
    · have := mem_recordingSnapshots_phase _ _ _ _ hmem
      simp at this
    · simp at hmem
  · intro hmem
    simp only [List.mem_append, List.mem_singleton] at hmem
    rcases hmem with (hmem | hmem) | hmem
    · simp [completeSnapshot] at hmem
    · have := mem_recordingSnapshots_phase _ _ _ _ hmem
      simp [completeSnapshot] at this
    · simp [completeSnapshot] at hmem

/-- Witness for the amended C4 theorem at a concrete empty-capture
session. -/
theorem export_empty_capture_witness :
    (exportRun true ⟨1, "s"⟩ ⟨1, 0⟩ envEmpty).2 = .error "No audio recorded" ∧
    completeSnapshot ∉ (exportRun true ⟨1, "s"⟩ ⟨1, 0⟩ envEmpty).1 :=
  ⟨(export_empty_capture ⟨1, "s"⟩ ⟨1, 0⟩ envEmpty rfl).1,
   (export_empty_capture ⟨1, "s"⟩ ⟨1, 0⟩ envEmpty rfl).2.2.2⟩

/-- Claim C5 counterexample: when the decoder rejects the captured binary,
`export` rejects with exactly the same error value, "No audio recorded",
that the empty-capture case produces — refuting the claim that a distinct
`DecodeError` kind is surfaced. -/
theorem decode_failure_same_error_cex :
    envDecodeFail.recorderEvents.foldl handleRecorderEvent [] ≠ [] ∧
    (exportRun true ⟨1, "s"⟩ ⟨1, 0⟩ envDecodeFail).2 =
      .error "No audio recorded" ∧
    (exportRun true ⟨1, "s"⟩ ⟨1, 0⟩ envEmpty).2 =
      (exportRun true ⟨1, "s"⟩ ⟨1, 0⟩ envDecodeFail).2 := by
  exact ⟨by decide, by rfl, by rfl⟩

/-- Claim C5 (amended): a decoder rejection is caught inside
`blobToAudioBuffer`, which resolves `null`, so `export` aborts with the
same "No audio recorded" error as the empty-capture case; no error kind
distinct from it exists. -/
theorem export_decode_failure (settings : ExportSettings)
    (scheduler : StrudelScheduler) (env : ExportEnv)
    (hne : env.recorderEvents.foldl handleRecorderEvent [] ≠ [])
    (hdec : ∀ bytes, env.decodeAudioData bytes = none) :
    (exportRun true settings scheduler env).2 = .error "No audio recorded" := by
  simp only [exportRun, stopRecordingResult, if_neg hne, hdec]
  rfl

/-- Witness for the amended C5 theorem at a concrete failing-decoder
session. -/
theorem export_decode_failure_witness :
    (exportRun true ⟨1, "s"⟩ ⟨1, 0⟩ envDecodeFail).2 =
      .error "No audio recorded" :=
  export_decode_failure ⟨1, "s"⟩ ⟨1, 0⟩ envDecodeFail (by decide)
    (fun _ => rfl)

/-- Claim C6 counterexample: the per-character replacement preserves
length, so the three disallowed characters of "My Song! #1" each become an
underscore and sanitization yields "My_Song___1", not the claimed
"My_Song__1". -/
theorem sanitizeName_example_cex :
    sanitizeName "My Song! #1" = "My_Song___1" ∧
    sanitizeName "My Song! #1" ≠ "My_Song__1" := by
  exact ⟨by rfl, by decide⟩

/-- Claim C6 (amended): `sanitizeName` replaces every character outside
[A-Za-z0-9_-] with an underscore, truncates to 50 characters and
substitutes "export" when the result is empty; `sanitizeName("My Song! #1")`
is "My_Song___1", `sanitizeName("")` is "export", and any 80-character name
truncates to exactly 50 characters. -/
theorem sanitizeName_correct :
    (∀ s : String, s ≠ "" → (sanitizeName s).toList =
      (s.toList.map (fun c => if allowedChar c then c else '_')).take 50) ∧
    (∀ s : String, (sanitizeName s).length ≤ 50) ∧
    sanitizeName "" = "export" ∧
    sanitizeName "My Song! #1" = "My_Song___1" ∧
    (∀ t : String, t.length = 80 → (sanitizeName t).length = 50) := by
  have key : ∀ s : String, s ≠ "" → sanitizeName s =
      String.mk ((s.toList.map (fun c => if allowedChar c then c else '_')).take 50) := by
    intro s hs
    have hl : s.toList ≠ [] := by
      intro h
      apply hs
      cases s with
      | mk l =>
          have : l = [] := h
          rw [this]
    have htake :
        (s.toList.map (fun c => if allowedChar c then c else '_')).take 50 ≠ [] := by
      intro h
      rw [List.take_eq_nil_iff] at h
      rcases h with h | h
      · exact absurd h (by norm_num)
      · exact hl (by simpa using h)
    simp only [sanitizeName]
    split
    · next h =>
        exact absurd (by simpa using congrArg String.toList h) htake
    · rfl
  refine ⟨?_, ?_, by rfl, by rfl, ?_⟩
  · intro s hs
    rw [key s hs]
    rfl
  · intro s
    by_cases hs : s = ""
    · subst hs
      decide
    · rw [key s hs]
      show ((s.toList.map (fun c => if allowedChar c then c else '_')).take 50).length ≤ 50
      rw [List.length_take]
      exact min_le_left _ _
  · intro t ht
    have hne : t ≠ "" := by
      intro h
      rw [h] at ht
      exact absurd ht (by decide)
    rw [key t hne]
    have hlen : t.toList.length = 80 := ht
    show ((t.toList.map (fun c => if allowedChar c then c else '_')).take 50).length = 50
    rw [List.length_take, List.length_map, hlen]
    rfl

/-- Witness for the amended C6 theorem: per-character replacement of a
concrete non-empty name, and exact truncation of a concrete 80-character
name. -/
theorem sanitizeName_correct_witness :
    (sanitizeName "a b").toList =
      (("a b").toList.map (fun c => if allowedChar c then c else '_')).take 50 ∧
    (sanitizeName (String.mk (List.replicate 80 'a'))).length = 50 :=
  ⟨sanitizeName_correct.1 "a b" (by decide),
   sanitizeName_correct.2.2.2.2 (String.mk (List.replicate 80 'a')) (by rfl)⟩

/-- Claim C7: the pre-recording sleep (in milliseconds) is exactly
`max(0, (ceil(now) - now) * cyclePeriod) * 1000`, and at cps = 0.5 with
now() = 2.3 the computed wait is (3 - 2.3) * 2 = 1.4 seconds, i.e. the
sleep is 1400 ms. -/
theorem export_boundary_wait (s : StrudelScheduler) :
    preWaitMs s =
      max 0 (((⌈s.now⌉ : ℚ) - s.now) * cycleDuration s.cps) * 1000 ∧
    waitTime ⟨1 / 2, 23 / 10⟩ = 7 / 5 ∧
    preWaitMs ⟨1 / 2, 23 / 10⟩ = 1400 := by
  have hceil : (⌈(23 : ℚ) / 10⌉ : ℤ) = 3 := by
    rw [Int.ceil_eq_iff]
    constructor <;> norm_num
  refine ⟨?_, ?_, ?_⟩
  · rw [preWaitMs, waitTime, max_mul_of_nonneg _ _ (by norm_num : (0 : ℚ) ≤ 1000)]
    rw [zero_mul]
  · simp only [waitTime, cycleDuration, effectiveCps]
    norm_num [hceil]
  · simp only [preWaitMs, waitTime, cycleDuration, effectiveCps]
    norm_num [hceil]

/-- Claim C8: the patched `connect` wrapper always performs the original
connection first (the original connection log is a prefix of the new one)
and returns exactly the original call's return value; and whenever the tap
is inactive it is observationally identical to the unpatched original — no
extra connection to the capture sink is made. -/
theorem connectPatched_refines_originalConnect (st : TapState)
    (log : List (Node × Node)) (src dst : Node) :
    (connectPatched st log src dst).2 = (originalConnect log src dst).2 ∧
    (∃ extra, (connectPatched st log src dst).1 =
      (originalConnect log src dst).1 ++ extra) ∧
    (st.isRecordingActive = false →
      connectPatched st log src dst = originalConnect log src dst) := by
  refine ⟨rfl, ?_, ?_⟩
  · simp only [connectPatched, originalConnect]
    cases hA : st.isRecordingActive
    · exact ⟨[], by simp⟩
    · cases hR : st.recordingDestination with
      | none => exact ⟨[], by simp⟩
      | some rd =>
          cases hC : st.audioContextRef with
          | none => exact ⟨[], by simp⟩
          | some ctx =>
              by_cases hd : dst = ctx.destination
              · exact ⟨[(src, rd)], by simp [hd]⟩
              · exact ⟨[], by simp [hd]⟩
  · intro h
    simp only [connectPatched, originalConnect, h]
    rfl

/-- Witness for C8 at an inactive tap state and a concrete connection. -/
theorem connectPatched_refines_originalConnect_witness :
    connectPatched ⟨false, some ⟨7⟩, some ⟨⟨9⟩⟩⟩ [] ⟨1⟩ ⟨9⟩ =
      originalConnect [] ⟨1⟩ ⟨9⟩ :=
  (connectPatched_refines_originalConnect ⟨false, some ⟨7⟩, some ⟨⟨9⟩⟩⟩
    [] ⟨1⟩ ⟨9⟩).2.2 rfl

/-- Claim C9: across one Recording phase the reported progress values —
the initial 0 and then `min(100, elapsed/duration*100)` for each sampled
elapsed time — form a monotonically non-decreasing sequence whenever the
sampled elapsed times are non-negative and non-decreasing; and on a
successful run the final snapshot reported is the `complete` one, whose
progress is exactly 100. -/
theorem recording_progress_monotone (d : ℚ) (cycles : ℕ) (ticks : List ℚ)
    (hd : 0 < d) (h0 : ∀ e ∈ ticks, 0 ≤ e)
    (hmono : ticks.Chain' (· ≤ ·)) :
    ((recordingSnapshots d cycles ticks).map ExportProgress.progress).Chain'
      (· ≤ ·) ∧
    completeSnapshot.phase = Phase.complete ∧
    completeSnapshot.progress = 100 ∧
    (∀ (settings : ExportSettings) (scheduler : StrudelScheduler)
      (env : ExportEnv) (buf : AudioBuffer),
      stopRecordingResult env.decodeAudioData
        (env.recorderEvents.foldl handleRecorderEvent []) = some buf →
      (exportRun true settings scheduler env).1.getLast? =
        some completeSnapshot) := by
  refine ⟨?_, rfl, rfl, ?_⟩
  · have hmap : (recordingSnapshots d cycles ticks).map ExportProgress.progress =
        0 :: ticks.map (fun e => min 100 (e / d * 100)) := by
      simp [recordingSnapshots, recordingTickSnapshot, Function.comp]
    rw [hmap]
    have hchain : (ticks.map (fun e => min 100 (e / d * 100))).Chain' (· ≤ ·) := by
      rw [List.chain'_map]
      refine hmono.imp ?_
      intro a b hab
      exact min_le_min le_rfl (by
        apply mul_le_mul_of_nonneg_right _ (by norm_num)
        exact div_le_div_of_nonneg_right hab hd.le)
    rw [List.chain'_cons']
    refine ⟨?_, hchain⟩
    intro p hp
    cases ticks with
    | nil => simp at hp
    | cons t ts =>
        simp only [List.map_cons, List.head?_cons, Option.mem_def,
          Option.some_inj] at hp
        subst hp
        have ht : 0 ≤ t := h0 t (List.mem_cons_self t ts)
        have : (0 : ℚ) ≤ t / d * 100 :=
          mul_nonneg (div_nonneg ht hd.le) (by norm_num)
        exact le_min (by norm_num) this
  · intro settings scheduler env buf hbuf
    simp only [exportRun, hbuf]
    rw [if_neg (by simp)]
    have hsplit :
        [(⟨.preparing, 0, none, none⟩ : ExportProgress)] ++
          recordingSnapshots
            (totalDuration settings.cycles scheduler.cps * 1000)
            settings.cycles env.ticks ++
          [⟨.encoding, 50, none, none⟩] ++
          [⟨.encoding, 80, none, none⟩, completeSnapshot] =
        ([(⟨.preparing, 0, none, none⟩ : ExportProgress)] ++
          recordingSnapshots
            (totalDuration settings.cycles scheduler.cps * 1000)
            settings.cycles env.ticks ++
          [⟨.encoding, 50, none, none⟩, ⟨.encoding, 80, none, none⟩]) ++
          [completeSnapshot] := by
      simp
    rw [hsplit, List.getLast?_concat]

/-- Witness for C9 at a concrete duration, tick sequence and successful
session. -/
theorem recording_progress_monotone_witness :
    ((recordingSnapshots 2000 1 [0, 500, 1000]).map
      ExportProgress.progress).Chain' (· ≤ ·) ∧
    (exportRun true ⟨1, "s"⟩ ⟨1, 0⟩ envOk).1.getLast? =
      some completeSnapshot :=
  ⟨(recording_progress_monotone 2000 1 [0, 500, 1000] (by norm_num)
      (by intro e he; fin_cases he <;> norm_num)
      (by norm_num [List.chain'_cons])).1,
   (recording_progress_monotone 2000 1 [0, 500, 1000] (by norm_num)
      (by intro e he; fin_cases he <;> norm_num)
      (by norm_num [List.chain'_cons])).2.2.2 ⟨1, "s"⟩ ⟨1, 0⟩ envOk emptyBuffer (by rfl)⟩

/-- Claim C10: a falsy (zero) `scheduler.cps` is replaced by the default
0.5 cycles per second before the cycle period `1 / cps` is computed, so
the period is 2 seconds and, for any cycles >= 1, the target duration
`cycles * cycleDuration` is a positive (finite) rational — the division
never involves a zero cps. -/
theorem export_cps_zero_default (cycles : ℕ) (h : 1 ≤ cycles) :
    effectiveCps 0 = 1 / 2 ∧
    effectiveCps 0 ≠ 0 ∧
    cycleDuration 0 = 2 ∧
    totalDuration cycles 0 = 2 * cycles ∧
    0 < totalDuration cycles 0 := by
  refine ⟨rfl, by norm_num [effectiveCps], by norm_num [cycleDuration, effectiveCps], ?_, ?_⟩
  · simp only [totalDuration, cycleDuration, effectiveCps]
    norm_num
    ring
  · simp only [totalDuration, cycleDuration, effectiveCps]
    norm_num
    exact_mod_cast Nat.lt_of_lt_of_le Nat.zero_lt_one h

/-- Witness for C10 at a concrete cycle count. -/
theorem export_cps_zero_default_witness :
    totalDuration 4 0 = 2 * 4 ∧ 0 < totalDuration 4 0 :=
  ⟨(export_cps_zero_default 4 (by norm_num)).2.2.2.1,
   (export_cps_zero_default 4 (by norm_num)).2.2.2.2⟩

end StrudelAI
